import Mathlib

/-!
Verification of the uno rendering layer (newpolaris/uno).

Shallow embedding of the three core subsystems:
  * the sparse/dense bounded handle allocator (handle_alloc.h),
  * the per-frame draw-list batcher (draw_list_t in sources/ubo/main.cpp),
  * the state-cached renderer backends (renderer_opengl_t / renderer_gl2_t /
    renderer_gl3_t in sources/ubo/main.cpp).

Modelling conventions:
  * C arrays become total maps Nat -> Nat; a write is array_write.  Index
    bounds that the C++ code relies on appear as explicit invariants or
    hypotheses; an out-of-bounds C++ access corresponds to a write or read
    at an index that the relevant bound excludes.
  * handle_t is uint8_t; its values stay below 256 in every defined
    execution, so plain Nat is used and the pool capacity is constrained
    to at most 255 where it matters (invalid_handle_t is UINT8_MAX = 255).
  * index_t is uint32_t; the rebasing addition in draw_list_t::draw is a
    defined wrap-around, modelled with an explicit mod 2^32.  Sizes,
    counts and offsets are modelled as Nat (the int32_t narrowing of a
    vector size is in range for any frame a real process can build).
  * Vertex and uniform payloads are never inspected by the code under
    verification (they are only copied), so they are type parameters.
  * Side-effecting graphics-API calls are modelled as an emitted event
    list (gl_event); a backend operation returns its new state together
    with the events it issued, in order.
-/

/-! ## Handle allocator (handle_alloc.h) -/

def invalid_handle_t : Nat := 255

def array_write (f : Nat → Nat) (i v : Nat) : Nat → Nat :=
  fun x => if x = i then v else f x

structure handle_alloc_t where
  num_handles : Nat
  max_handles : Nat
  dense : Nat → Nat
  sparse : Nat → Nat

/-- Constructor plus reset(): no handles issued, dense i = i.  The C++
sparse array is left uninitialized by reset(); it is modelled as all
zeroes (it is never read before being written for a given handle). -/
def handle_alloc_t.init (N : Nat) : handle_alloc_t :=
  { num_handles := 0, max_handles := N, dense := fun i => i, sparse := fun _ => 0 }

def handle_alloc_t.alloc (s : handle_alloc_t) : handle_alloc_t × Nat :=
  if s.num_handles < s.max_handles then
    let index := s.num_handles
    let handle := s.dense index
    ({ s with num_handles := index + 1, sparse := array_write s.sparse handle index },
     handle)
  else
    (s, invalid_handle_t)

def handle_alloc_t.free (s : handle_alloc_t) (handle : Nat) : handle_alloc_t :=
  if handle = invalid_handle_t then s
  else
    let top_index := s.num_handles - 1
    let index := s.sparse handle
    let temp := s.dense top_index
    { s with
      num_handles := s.num_handles - 1,
      dense := array_write (array_write s.dense index temp) top_index handle,
      sparse := array_write s.sparse temp index }

/-- Traces of allocator operations, with the allocated-handle multiset kept
as a ghost list alongside the allocator state. -/
inductive alloc_op where
  | alloc : alloc_op
  | free : Nat → alloc_op
deriving DecidableEq

def run_alloc_ops : handle_alloc_t → List Nat → List alloc_op → handle_alloc_t × List Nat
  | s, A, [] => (s, A)
  | s, A, .alloc :: ops => run_alloc_ops s.alloc.1 (A ++ [s.alloc.2]) ops
  | s, A, .free h :: ops => run_alloc_ops (s.free h) (A.erase h) ops

/-- A trace is legal when it never calls alloc on a full pool and never
frees a handle that is not currently allocated. -/
def legal_alloc_ops : handle_alloc_t → List Nat → List alloc_op → Bool
  | _, _, [] => true
  | s, A, .alloc :: ops =>
      decide (A.length < s.max_handles) && legal_alloc_ops s.alloc.1 (A ++ [s.alloc.2]) ops
  | s, A, .free h :: ops =>
      decide (h ∈ A) && legal_alloc_ops (s.free h) (A.erase h) ops

/-- The allocator invariant, relative to the ghost list A of currently
allocated handles: dense permutes [0,N) (range plus injectivity), A is
duplicate-free and in bijection with the first num_handles entries of
dense, and sparse points every allocated handle back at its dense slot. -/
structure alloc_inv (N : Nat) (s : handle_alloc_t) (A : List Nat) : Prop where
  hmax : s.max_handles = N
  hnum : s.num_handles ≤ N
  hrange : ∀ i, i < N → s.dense i < N
  hinj : ∀ i j, i < N → j < N → s.dense i = s.dense j → i = j
  hlen : A.length = s.num_handles
  hnodup : A.Nodup
  hmem : ∀ x, x ∈ A ↔ ∃ i, i < s.num_handles ∧ s.dense i = x
  hsparse : ∀ h, h ∈ A → s.sparse h < s.num_handles ∧ s.dense (s.sparse h) = h

/-! ## Draw list (draw_list_t, sources/ubo/main.cpp lines 375-430) -/

/-- index_t is uint32_t. -/
def index_mod : Nat := 2 ^ 32

structure draw_list_command_t where
  count : Nat
  offset : Nat
deriving DecidableEq

/-- draw_list_t.  Vertices are only copied, never inspected, so the
vertex payload is a type parameter.  vertex_pointer and index_pointer
are write cursors into the freshly reserved tails and are subsumed by
the list appends. -/
structure draw_list_t (V : Type) where
  vertices : List V
  indices : List Nat
  commands : List draw_list_command_t

def draw_list_t.empty (V : Type) : draw_list_t V :=
  { vertices := [], indices := [], commands := [] }

/-- draw_list_t::draw: record the current sizes, append the vertices,
append each local index plus the previous vertex count (uint32
wrap-around made explicit), and push one command covering the newly
appended index range. -/
def draw_list_t.draw {V : Type} (dl : draw_list_t V) (vertex : List V) (index : List Nat) :
    draw_list_t V :=
  let index_offset := dl.indices.length
  let vertex_offset := dl.vertices.length
  { vertices := dl.vertices ++ vertex,
    indices := dl.indices ++ index.map (fun ix => (ix + vertex_offset) % index_mod),
    commands := dl.commands ++ [{ count := index.length, offset := index_offset }] }

/-- The slice of the shared index sequence that one command denotes. -/
def command_slice (l : List Nat) (c : draw_list_command_t) : List Nat :=
  (l.drop c.offset).take c.count

/-- A frame: fold a list of (vertices, local indices) submissions into a
draw list. -/
def draw_all {V : Type} (dl : draw_list_t V) (subs : List (List V × List Nat)) :
    draw_list_t V :=
  subs.foldl (fun d p => d.draw p.1 p.2) dl

/-- Commands starting at offset m are consecutive and end exactly at e. -/
def commands_contiguous : Nat → List draw_list_command_t → Nat → Prop
  | m, [], e => m = e
  | m, c :: cs, e => c.offset = m ∧ commands_contiguous (m + c.count) cs e

/-! ## State cache (texture_state_t / update_state, main.cpp lines 341-373,
478-492) -/

def GL_TEXTURE_2D : Nat := 0x0DE1

def GL_TEXTURE_2D_ARRAY : Nat := 0x8C1A

def GL_TEXTURE_CUBE_MAP : Nat := 0x8513

def GL_TEXTURE_2D_MULTISAMPLE : Nat := 0x9100

def GL_TEXTURE_EXTERNAL_OES : Nat := 0x8D65

def GL_TEXTURE0 : Nat := 0x84C0

def GL_ARRAY_BUFFER : Nat := 0x8892

def GL_ELEMENT_ARRAY_BUFFER : Nat := 0x8893

def GL_UNIFORM_BUFFER : Nat := 0x8A11

def get_index_for_texture_target (target : Nat) : Nat :=
  if target = GL_TEXTURE_2D then 0
  else if target = GL_TEXTURE_2D_ARRAY then 1
  else if target = GL_TEXTURE_CUBE_MAP then 2
  else if target = GL_TEXTURE_2D_MULTISAMPLE then 3
  else if target = GL_TEXTURE_EXTERNAL_OES then 4
  else 0

/-- texture_state_t: the active-unit cache plus the per-unit, per-target
bound-texture cache (unit[8].target[5].instance in the source, modelled
as a total map; the source indices stay below 8 and 5).  All entries are
zero-initialized by the member initializers. -/
structure texture_state_t where
  activate : Nat
  unit : Nat → Nat → Nat

def texture_state_t.initial : texture_state_t :=
  { activate := 0, unit := fun _ _ => 0 }

/-- update_state: invoke the functor and store the new value only when
forced or when the cached value differs.  The returned Bool reports
whether the functor was invoked; the returned value is the cache entry
afterwards. -/
def update_state {T : Type} [DecidableEq T] (state expected : T) (force : Bool) : T × Bool :=
  if force || decide (state ≠ expected) then (expected, true) else (state, false)

/-- Side-effecting graphics calls, in issue order. -/
inductive gl_event where
  | activeTexture (unit : Nat)
  | bindTexture (target inst : Nat)
  | bufferData (target size : Nat)
  | bindBufferRange (slot offset size : Nat)
  | drawElements (count offset : Nat)
  | deleteTexture (inst : Nat)
deriving DecidableEq

/-- renderer_opengl_t::activate_texture: glActiveTexture through the
cache (force is never passed, so it defaults to false). -/
def activate_texture (ts : texture_state_t) (unit : Nat) : texture_state_t × List gl_event :=
  match update_state ts.activate unit false with
  | (a, true) => ({ ts with activate := a }, [gl_event.activeTexture (GL_TEXTURE0 + unit)])
  | (_, false) => (ts, [])

/-- renderer_opengl_t::bind_texture: glBindTexture through the cache; on
a miss the functor first routes glActiveTexture through the cache as
well (force is never passed). -/
def bind_texture (ts : texture_state_t) (unit target inst : Nat) :
    texture_state_t × List gl_event :=
  let target_index := get_index_for_texture_target target
  match update_state (ts.unit unit target_index) inst false with
  | (v, true) =>
      let ts1 : texture_state_t :=
        { ts with unit := fun u t => if u = unit ∧ t = target_index then v else ts.unit u t }
      let r := activate_texture ts1 unit
      (r.1, r.2 ++ [gl_event.bindTexture target inst])
  | (_, false) => (ts, [])

/-- Number of glBindTexture calls in an event list. -/
def count_bind_texture (evs : List gl_event) : Nat :=
  (evs.filter fun e => match e with | .bindTexture _ _ => true | _ => false).length

/-- Cached application of a sequence of requested values through
update_state (force never passed), counting functor invocations. -/
def apply_states (c : Nat) : List Nat → Nat × Nat
  | [] => (c, 0)
  | v :: l =>
      let r := update_state c v false
      let rest := apply_states r.1 l
      (rest.1, (if r.2 then 1 else 0) + rest.2)

/-- Number of adjacent unequal pairs in a request sequence. -/
def transitions : List Nat → Nat
  | [] => 0
  | [_] => 0
  | a :: b :: l => (if a = b then 0 else 1) + transitions (b :: l)

/-- renderer_gl2_t::texture applied to a sequence of resource ids: each
submission calls bind_texture(0, GL_TEXTURE_2D, id) through the cache. -/
def gl2_texture_binds (ts : texture_state_t) : List Nat → texture_state_t × List gl_event
  | [] => (ts, [])
  | id :: rest =>
      let r := bind_texture ts 0 GL_TEXTURE_2D id
      let r2 := gl2_texture_binds r.1 rest
      (r2.1, r.2 ++ r2.2)

/-- Invocation count of a cached value sequence, relative to the cached
start value. -/
def changes (c : Nat) : List Nat → Nat
  | [] => 0
  | v :: l => (if v = c then 0 else 1) + changes v l

/-! ## Renderer backends (renderer_opengl_t / renderer_gl3_t,
main.cpp lines 444-1012) -/

def max_texture : Nat := 128

structure mesh_t where
  offset : Nat
  size : Nat
deriving DecidableEq

structure draw_command_uniform_t where
  id : Nat
  offset : Nat
  size : Nat
  slot : Nat
deriving DecidableEq

structure draw_command_t where
  mesh : mesh_t
  uniform : draw_command_uniform_t
  texture : Nat
deriving DecidableEq

/-- sizeof(uniform_block_t): a 64-byte uniform_t padded to 256 bytes. -/
def uniform_block_size : Nat := 256

/-- renderer_gl3_t state.  Vertex and uniform payloads are abstract type
parameters; GL object names (vbo/ibo/ubo/program ids) are constants with
no behavioural content here and are omitted.  textures is the
GLuint textures[max_texture] array of resource ids (zeroed in setup). -/
structure renderer_gl3_t (V U : Type) where
  handle_alloc : handle_alloc_t
  textures : Nat → Nat
  texture_state : texture_state_t
  draw_list : draw_list_t V
  free_textures : List Nat
  bind_textures : List Nat
  uniforms : List U
  draw_commands : List draw_command_t

def renderer_gl3_t.initial (V U : Type) : renderer_gl3_t V U :=
  { handle_alloc := handle_alloc_t.init max_texture,
    textures := fun _ => 0,
    texture_state := texture_state_t.initial,
    draw_list := draw_list_t.empty V,
    free_textures := [],
    bind_textures := [],
    uniforms := [],
    draw_commands := [] }

/-- renderer_gl3_t::begin_frame: clear the per-frame accumulation state
(the deferred-destroy queue is deliberately not cleared). -/
def renderer_gl3_t.begin_frame {V U : Type} (s : renderer_gl3_t V U) : renderer_gl3_t V U :=
  { s with draw_list := draw_list_t.empty V, uniforms := [], bind_textures := [],
           draw_commands := [] }

def renderer_gl3_t.draw {V U : Type} (s : renderer_gl3_t V U)
    (vertices : List V) (indices : List Nat) : renderer_gl3_t V U :=
  { s with draw_list := s.draw_list.draw vertices indices }

def renderer_gl3_t.uniform {V U : Type} (s : renderer_gl3_t V U) (u : U) :
    renderer_gl3_t V U :=
  { s with uniforms := s.uniforms ++ [u] }

def renderer_gl3_t.texture {V U : Type} (s : renderer_gl3_t V U) (h : Nat) :
    renderer_gl3_t V U :=
  { s with bind_textures := s.bind_textures ++ [h] }

/-- create_texture (same body in renderer_opengl_t, lines 610-615, and
renderer_gl3_t, lines 1000-1005): allocate a handle, then
unconditionally store the native resource id produced by
create_texture_impl into textures[handle.index].  rid stands for the id
create_texture_impl returns. -/
def renderer_gl3_t.create_texture {V U : Type} (s : renderer_gl3_t V U) (rid : Nat) :
    renderer_gl3_t V U × Nat :=
  let r := s.handle_alloc.alloc
  ({ s with handle_alloc := r.1, textures := array_write s.textures r.2 rid }, r.2)

/-- renderer_gl3_t::destroy_texture (lines 1007-1012): deferred; only
queue the handle. -/
def renderer_gl3_t.destroy_texture {V U : Type} (s : renderer_gl3_t V U) (h : Nat) :
    renderer_gl3_t V U :=
  if h = invalid_handle_t then s
  else { s with free_textures := s.free_textures ++ [h] }

def renderer_gl3_t.uniform_offsets {V U : Type} (s : renderer_gl3_t V U) :
    List (Nat × Nat) :=
  (List.range s.uniforms.length).map fun i => (i * uniform_block_size, uniform_block_size)

/-- The draw_commands array built in end_frame (lines 921-928): entry i
reads draw_list.commands[i], uniform_offsets[i] and bind_textures[i].
The getD defaults stand for the indeterminate values an out-of-bounds
vector read would produce; end_frame_in_bounds characterizes when no
access needs them. -/
def renderer_gl3_t.build_draw_commands {V U : Type} (s : renderer_gl3_t V U)
    (num_frac : Nat) : List draw_command_t :=
  (List.range num_frac).map fun i =>
    { mesh := { offset := (s.draw_list.commands.getD i { count := 0, offset := 0 }).offset,
                size := (s.draw_list.commands.getD i { count := 0, offset := 0 }).count },
      uniform := { id := 0,
                   offset := (s.uniform_offsets.getD i (0, 0)).1,
                   size := (s.uniform_offsets.getD i (0, 0)).2,
                   slot := 0 },
      texture := s.textures (s.bind_textures.getD i 0) }

/-- All sequence accesses performed by the end_frame command loops are
in bounds. -/
def renderer_gl3_t.end_frame_in_bounds {V U : Type} (num_frac : Nat)
    (s : renderer_gl3_t V U) : Prop :=
  ∀ i, i < num_frac →
    i < s.draw_list.commands.length ∧ i < s.uniform_offsets.length
      ∧ i < s.bind_textures.length

instance {V U : Type} (num_frac : Nat) (s : renderer_gl3_t V U) :
    Decidable (s.end_frame_in_bounds num_frac) := by
  unfold renderer_gl3_t.end_frame_in_bounds
  exact Nat.decidableBallLT num_frac _

/-- The raw (uncached) GL calls one command issues in the end_frame loop
(lines 949-958): glBindBufferRange, glActiveTexture(GL_TEXTURE0),
glBindTexture(GL_TEXTURE_2D, texture), glDrawElements. -/
def command_events (c : draw_command_t) : List gl_event :=
  [gl_event.bindBufferRange c.uniform.slot c.uniform.offset c.uniform.size,
   gl_event.activeTexture GL_TEXTURE0,
   gl_event.bindTexture GL_TEXTURE_2D c.texture,
   gl_event.drawElements c.mesh.size c.mesh.offset]

/-- Drain of the deferred-destroy queue (lines 963-969): per queued
handle, glDeleteTextures on the stored resource id, zero the slot,
return the handle to the pool. -/
def drain_free_textures : (Nat → Nat) → handle_alloc_t → List Nat →
    (Nat → Nat) × handle_alloc_t × List gl_event
  | tex, ha, [] => (tex, ha, [])
  | tex, ha, h :: rest =>
      let r := drain_free_textures (array_write tex h 0) (ha.free h) rest
      (r.1, r.2.1, gl_event.deleteTexture (tex h) :: r.2.2)

/-- renderer_gl3_t::end_frame (lines 882-970): bulk-upload the three
buffers, build the command array, issue the per-command draw loop, then
drain the deferred-destroy queue. -/
def renderer_gl3_t.end_frame {V U : Type} (num_frac : Nat) (s : renderer_gl3_t V U) :
    renderer_gl3_t V U × List gl_event :=
  let upload_events :=
    [gl_event.bufferData GL_ARRAY_BUFFER s.draw_list.vertices.length,
     gl_event.bufferData GL_ELEMENT_ARRAY_BUFFER s.draw_list.indices.length,
     gl_event.bufferData GL_UNIFORM_BUFFER (uniform_block_size * s.uniforms.length)]
  let cmds := s.build_draw_commands num_frac
  let r := drain_free_textures s.textures s.handle_alloc s.free_textures
  ({ s with draw_commands := cmds, textures := r.1, handle_alloc := r.2.1,
            free_textures := [] },
   upload_events ++ (cmds.map command_events).flatten ++ r.2.2)

/-- Mid-frame operations a caller can issue between begin_frame and
end_frame (render_background_texture issues all five kinds). -/
inductive frame_op (V U : Type) where
  | draw (vertices : List V) (indices : List Nat)
  | uniform (u : U)
  | texture (h : Nat)
  | destroy (h : Nat)
  | create (rid : Nat)

def apply_frame_op {V U : Type} (s : renderer_gl3_t V U) : frame_op V U → renderer_gl3_t V U
  | .draw vs ixs => s.draw vs ixs
  | .uniform u => s.uniform u
  | .texture h => s.texture h
  | .destroy h => s.destroy_texture h
  | .create rid => (s.create_texture rid).1

def run_frame_ops {V U : Type} (s : renderer_gl3_t V U) (ops : List (frame_op V U)) :
    renderer_gl3_t V U :=
  ops.foldl apply_frame_op s

def count_draw_ops {V U : Type} : List (frame_op V U) → Nat
  | [] => 0
  | .draw _ _ :: t => count_draw_ops t + 1
  | _ :: t => count_draw_ops t

def count_uniform_ops {V U : Type} : List (frame_op V U) → Nat
  | [] => 0
  | .uniform _ :: t => count_uniform_ops t + 1
  | _ :: t => count_uniform_ops t

def count_texture_ops {V U : Type} : List (frame_op V U) → Nat
  | [] => 0
  | .texture _ :: t => count_texture_ops t + 1
  | _ :: t => count_texture_ops t

def is_delete_event : gl_event → Bool :=
  fun e => match e with | .deleteTexture _ => true | _ => false

def is_draw_event : gl_event → Bool :=
  fun e => match e with | .drawElements _ _ => true | _ => false

/-- A reachable full allocator of capacity max_texture = 128: the state
after 128 consecutive alloc calls on a fresh pool. -/
def full_handle_alloc : handle_alloc_t :=
  { num_handles := max_texture, max_handles := max_texture,
    dense := fun i => i, sparse := fun i => i }

def full_renderer : renderer_gl3_t Unit Unit :=
  { renderer_gl3_t.initial Unit Unit with handle_alloc := full_handle_alloc }

/-- Test evaluation of C1 scenario while developing. -/
example :
    let s0 := handle_alloc_t.init 4
    let r0 := s0.alloc
    let r1 := r0.1.alloc
    let r2 := r1.1.alloc
    let r3 := r2.1.alloc
    let s4 := r3.1.free 1
    let r4 := s4.alloc
    let r5 := r4.1.alloc
    r0.2 = 0 ∧ r1.2 = 1 ∧ r2.2 = 2 ∧ r3.2 = 3 ∧ r4.2 = 1 ∧ r5.2 = invalid_handle_t := by
  decide

theorem array_write_apply (f : Nat → Nat) (i v x : Nat) :
    array_write f i v x = if x = i then v else f x := rfl

theorem alloc_inv_init (N : Nat) : alloc_inv N (handle_alloc_t.init N) [] where
  hmax := rfl
  hnum := Nat.zero_le N
  hrange := fun _ hi => hi
  hinj := fun _ _ _ _ h => h
  hlen := rfl
  hnodup := List.nodup_nil
  hmem := by intro x; simp [handle_alloc_t.init]
  hsparse := by intro h hh; simp at hh

theorem handle_alloc_t.alloc_eq_of_lt {s : handle_alloc_t}
    (h : s.num_handles < s.max_handles) :
    s.alloc = ({ s with num_handles := s.num_handles + 1,
                        sparse := array_write s.sparse (s.dense s.num_handles) s.num_handles },
               s.dense s.num_handles) := by
  simp [handle_alloc_t.alloc, h]

theorem handle_alloc_t.free_eq_of_ne {s : handle_alloc_t} {h : Nat}
    (hne : h ≠ invalid_handle_t) :
    s.free h = { s with
      num_handles := s.num_handles - 1,
      dense := array_write (array_write s.dense (s.sparse h) (s.dense (s.num_handles - 1)))
                 (s.num_handles - 1) h,
      sparse := array_write s.sparse (s.dense (s.num_handles - 1)) (s.sparse h) } := by
  simp [handle_alloc_t.free, hne]

theorem alloc_inv_alloc {N : Nat} {s : handle_alloc_t} {A : List Nat}
    (inv : alloc_inv N s A) (hfull : A.length < N) :
    alloc_inv N s.alloc.1 (A ++ [s.alloc.2]) := by
  have hnN : s.num_handles < N := inv.hlen ▸ hfull
  have hlt : s.num_handles < s.max_handles := inv.hmax ▸ hnN
  rw [handle_alloc_t.alloc_eq_of_lt hlt]
  dsimp only
  have hnew_notmem : s.dense s.num_handles ∉ A := by
    intro hm
    obtain ⟨i, hi, hdi⟩ := (inv.hmem _).1 hm
    have := inv.hinj i s.num_handles (by omega) hnN hdi
    omega
  refine ⟨inv.hmax, by show s.num_handles + 1 ≤ N; omega, inv.hrange, inv.hinj, ?_, ?_, ?_, ?_⟩
  · simp [inv.hlen]
  · exact List.nodup_append.2 ⟨inv.hnodup, List.nodup_singleton _,
      by intro a ha hb; simp at hb; exact hnew_notmem (hb ▸ ha)⟩
  · intro x
    simp only [List.mem_append, List.mem_singleton, inv.hmem]
    constructor
    · rintro (⟨i, hi, hdi⟩ | rfl)
      · exact ⟨i, by omega, hdi⟩
      · exact ⟨s.num_handles, by omega, rfl⟩
    · rintro ⟨i, hi, hdi⟩
      rcases Nat.lt_or_ge i s.num_handles with hlt2 | hge
      · exact Or.inl ⟨i, hlt2, hdi⟩
      · have : i = s.num_handles := by omega
        exact Or.inr (this ▸ hdi).symm
  · intro x hx
    rcases List.mem_append.1 hx with hxA | hxnew
    · have hxne : x ≠ s.dense s.num_handles := fun he => hnew_notmem (he ▸ hxA)
      obtain ⟨h1, h2⟩ := inv.hsparse x hxA
      refine ⟨?_, ?_⟩
      · show array_write s.sparse (s.dense s.num_handles) s.num_handles x < s.num_handles + 1
        rw [array_write_apply, if_neg hxne]; omega
      · show s.dense (array_write s.sparse (s.dense s.num_handles) s.num_handles x) = x
        rw [array_write_apply, if_neg hxne]; exact h2
    · simp at hxnew
      subst hxnew
      refine ⟨?_, ?_⟩
      · show array_write s.sparse (s.dense s.num_handles) s.num_handles _ < s.num_handles + 1
        rw [array_write_apply, if_pos rfl]; omega
      · show s.dense (array_write s.sparse (s.dense s.num_handles) s.num_handles _) = _
        rw [array_write_apply, if_pos rfl]

theorem alloc_inv_free {N : Nat} {s : handle_alloc_t} {A : List Nat} {h : Nat}
    (hN : N ≤ 255) (inv : alloc_inv N s A) (hm : h ∈ A) :
    alloc_inv N (s.free h) (A.erase h) := by
  obtain ⟨i0, hi0, hd0⟩ := (inv.hmem h).1 hm
  have hnpos : 0 < s.num_handles := by omega
  have hnN : s.num_handles ≤ N := inv.hnum
  have hhN : h < N := hd0 ▸ inv.hrange i0 (by omega)
  have hne : h ≠ invalid_handle_t := by unfold invalid_handle_t; omega
  obtain ⟨hsp_lt, hsp_eq⟩ := inv.hsparse h hm
  rw [handle_alloc_t.free_eq_of_ne hne]
  have htop_lt : s.num_handles - 1 < s.num_handles := by omega
  have htopN : s.num_handles - 1 < N := by omega
  have hidxN : s.sparse h < N := by omega
  have htempN : s.dense (s.num_handles - 1) < N := inv.hrange _ htopN
  have hd2 : ∀ x, array_write (array_write s.dense (s.sparse h) (s.dense (s.num_handles - 1)))
      (s.num_handles - 1) h x
      = if x = s.num_handles - 1 then h
        else if x = s.sparse h then s.dense (s.num_handles - 1) else s.dense x := by
    intro x; rw [array_write_apply, array_write_apply]
  have hs2 : ∀ x, array_write s.sparse (s.dense (s.num_handles - 1)) (s.sparse h) x
      = if x = s.dense (s.num_handles - 1) then s.sparse h else s.sparse x := by
    intro x; rw [array_write_apply]
  have hmem_iff : ∀ x : Nat, x ∈ A.erase h ↔ x ≠ h ∧ x ∈ A := fun _ => inv.hnodup.mem_erase_iff
  refine ⟨inv.hmax, by dsimp only; omega, ?_, ?_, ?_, inv.hnodup.erase h, ?_, ?_⟩
  · -- range of the swapped dense array
    intro i hi
    dsimp only
    rw [hd2]
    split
    · exact hhN
    · split
      · exact htempN
      · exact inv.hrange i hi
  · -- injectivity of the swapped dense array on [0, N)
    intro i j hi hj heq
    dsimp only at heq
    rw [hd2, hd2] at heq
    by_cases hit : i = s.num_handles - 1
    · rw [if_pos hit] at heq
      by_cases hjt : j = s.num_handles - 1
      · omega
      · rw [if_neg hjt] at heq
        by_cases hji : j = s.sparse h
        · rw [if_pos hji] at heq
          have := inv.hinj (s.sparse h) (s.num_handles - 1) hidxN htopN (by rw [hsp_eq]; exact heq)
          omega
        · rw [if_neg hji] at heq
          have := inv.hinj (s.sparse h) j hidxN hj (by rw [hsp_eq]; exact heq)
          omega
    · rw [if_neg hit] at heq
      by_cases hii : i = s.sparse h
      · rw [if_pos hii] at heq
        by_cases hjt : j = s.num_handles - 1
        · rw [if_pos hjt] at heq
          have := inv.hinj (s.num_handles - 1) (s.sparse h) htopN hidxN (by rw [hsp_eq]; exact heq)
          omega
        · rw [if_neg hjt] at heq
          by_cases hji : j = s.sparse h
          · omega
          · rw [if_neg hji] at heq
            have := inv.hinj (s.num_handles - 1) j htopN hj heq
            omega
      · rw [if_neg hii] at heq
        by_cases hjt : j = s.num_handles - 1
        · rw [if_pos hjt] at heq
          have := inv.hinj i (s.sparse h) hi hidxN (by rw [hsp_eq]; exact heq)
          omega
        · rw [if_neg hjt] at heq
          by_cases hji : j = s.sparse h
          · rw [if_pos hji] at heq
            have := inv.hinj i (s.num_handles - 1) hi htopN heq
            omega
          · rw [if_neg hji] at heq
            exact inv.hinj i j hi hj heq
  · -- ghost list length tracks num_handles
    dsimp only
    rw [List.length_erase_of_mem hm, inv.hlen]
  · -- membership: erased list matches the shortened dense prefix
    intro x
    dsimp only
    rw [hmem_iff x]
    constructor
    · rintro ⟨hxh, hxA⟩
      obtain ⟨i, hi, hdi⟩ := (inv.hmem x).1 hxA
      have hi_idx : i ≠ s.sparse h := by
        intro he; exact hxh (by rw [← hdi, he, hsp_eq])
      by_cases hi_top : i = s.num_handles - 1
      · have hidx_ne_top : s.sparse h ≠ s.num_handles - 1 := by
          intro he; exact hxh (by rw [← hdi, hi_top, ← he, hsp_eq])
        refine ⟨s.sparse h, by omega, ?_⟩
        rw [hd2, if_neg hidx_ne_top, if_pos rfl, ← hi_top, hdi]
      · refine ⟨i, by omega, ?_⟩
        rw [hd2, if_neg hi_top, if_neg hi_idx, hdi]
    · rintro ⟨i, hi, hdi⟩
      have hi_top : i ≠ s.num_handles - 1 := by omega
      rw [hd2, if_neg hi_top] at hdi
      by_cases hi_idx : i = s.sparse h
      · rw [if_pos hi_idx] at hdi
        have hxA : x ∈ A := (inv.hmem x).2 ⟨s.num_handles - 1, htop_lt, hdi⟩
        refine ⟨?_, hxA⟩
        intro hxeq
        have : s.num_handles - 1 = s.sparse h :=
          inv.hinj _ _ htopN hidxN (by rw [hsp_eq, ← hxeq, hdi])
        omega
      · rw [if_neg hi_idx] at hdi
        have hxA : x ∈ A := (inv.hmem x).2 ⟨i, by omega, hdi⟩
        refine ⟨?_, hxA⟩
        intro hxeq
        have : i = s.sparse h := inv.hinj _ _ (by omega) hidxN (by rw [hsp_eq, ← hxeq, hdi])
        omega
  · -- sparse keeps pointing allocated handles at their dense slot
    intro x hx
    obtain ⟨hxh, hxA⟩ := (hmem_iff x).1 hx
    obtain ⟨hsx_lt, hsx_eq⟩ := inv.hsparse x hxA
    dsimp only
    rw [hs2]
    by_cases hx_temp : x = s.dense (s.num_handles - 1)
    · rw [if_pos hx_temp]
      have hidx_ne_top : s.sparse h ≠ s.num_handles - 1 := by
        intro he; exact hxh (by rw [hx_temp, ← he, hsp_eq])
      refine ⟨by omega, ?_⟩
      rw [hd2, if_neg hidx_ne_top, if_pos rfl, hx_temp]
    · rw [if_neg hx_temp]
      have hsx_ne_top : s.sparse x ≠ s.num_handles - 1 := by
        intro he; exact hx_temp (by rw [← hsx_eq, he])
      have hsx_ne_idx : s.sparse x ≠ s.sparse h := by
        intro he; exact hxh (by rw [← hsx_eq, he, hsp_eq])
      refine ⟨by omega, ?_⟩
      rw [hd2, if_neg hsx_ne_top, if_neg hsx_ne_idx, hsx_eq]

theorem alloc_inv_run {N : Nat} (hN : N ≤ 255) :
    ∀ (ops : List alloc_op) (s : handle_alloc_t) (A : List Nat),
      alloc_inv N s A → legal_alloc_ops s A ops = true →
      alloc_inv N (run_alloc_ops s A ops).1 (run_alloc_ops s A ops).2 := by
  intro ops
  induction ops with
  | nil => intro s A inv _; exact inv
  | cons op rest ih =>
    intro s A inv hleg
    cases op with
    | alloc =>
      rw [legal_alloc_ops, Bool.and_eq_true, decide_eq_true_eq] at hleg
      have hfull : A.length < N := inv.hmax ▸ hleg.1
      rw [run_alloc_ops]
      exact ih _ _ (alloc_inv_alloc inv hfull) hleg.2
    | free h =>
      rw [legal_alloc_ops, Bool.and_eq_true, decide_eq_true_eq] at hleg
      rw [run_alloc_ops]
      exact ih _ _ (alloc_inv_free hN inv hleg.1) hleg.2

theorem commands_contiguous_snoc {m e k : Nat} :
    ∀ {cs : List draw_list_command_t}, commands_contiguous m cs e →
      commands_contiguous m (cs ++ [{ count := k, offset := e }]) (e + k) := by
  intro cs
  induction cs generalizing m with
  | nil =>
    intro hc
    have hme : m = e := hc
    exact ⟨hme.symm, show m + k = e + k by omega⟩
  | cons c cs ih => intro hc; exact ⟨hc.1, ih hc.2⟩

theorem draw_all_contiguous {V : Type} :
    ∀ (subs : List (List V × List Nat)) (dl : draw_list_t V),
      commands_contiguous 0 dl.commands dl.indices.length →
      commands_contiguous 0 (draw_all dl subs).commands (draw_all dl subs).indices.length := by
  intro subs
  induction subs with
  | nil => intro dl hc; exact hc
  | cons p rest ih =>
    intro dl hc
    show commands_contiguous 0 (draw_all (dl.draw p.1 p.2) rest).commands
      (draw_all (dl.draw p.1 p.2) rest).indices.length
    apply ih
    show commands_contiguous 0
      (dl.commands ++ [{ count := p.2.length, offset := dl.indices.length }])
      (dl.indices ++ p.2.map fun ix => (ix + dl.vertices.length) % index_mod).length
    rw [List.length_append, List.length_map]
    exact commands_contiguous_snoc hc

theorem join_command_slices :
    ∀ (cs : List draw_list_command_t) (l : List Nat) (m : Nat),
      commands_contiguous m cs l.length →
      ((cs.map (command_slice l)).flatten) = l.drop m := by
  intro cs
  induction cs with
  | nil =>
    intro l m hc
    rw [show m = l.length from hc, List.drop_length]
    rfl
  | cons c cs ih =>
    intro l m hc
    obtain ⟨hoff, hrest⟩ := hc
    show command_slice l c ++ (cs.map (command_slice l)).flatten = l.drop m
    rw [ih l (m + c.count) hrest, command_slice, hoff]
    rw [← List.drop_drop c.count m l]
    exact List.take_append_drop c.count (l.drop m)

theorem update_state_eq_same (v : Nat) : update_state v v false = (v, false) := by
  simp [update_state]

theorem update_state_eq_other {c v : Nat} (h : c ≠ v) : update_state c v false = (v, true) := by
  simp [update_state, h]

theorem apply_states_replicate_same (v : Nat) :
    ∀ n, apply_states v (List.replicate n v) = (v, 0) := by
  intro n
  induction n with
  | zero => rfl
  | succ m ih =>
    rw [List.replicate_succ]
    show (((apply_states (update_state v v false).1 (List.replicate m v)).1,
      (if (update_state v v false).2 then 1 else 0) +
        (apply_states (update_state v v false).1 (List.replicate m v)).2) : Nat × Nat) = (v, 0)
    rw [update_state_eq_same v]
    rw [show ((v, false) : Nat × Bool).1 = v from rfl]
    rw [ih]
    rfl

theorem apply_states_replicate_new {c v : Nat} (h : v ≠ c) :
    ∀ n, 1 ≤ n → apply_states c (List.replicate n v) = (v, 1) := by
  intro n hn
  obtain ⟨m, rfl⟩ : ∃ m, n = m + 1 := ⟨n - 1, by omega⟩
  rw [List.replicate_succ]
  show (((apply_states (update_state c v false).1 (List.replicate m v)).1,
    (if (update_state c v false).2 then 1 else 0) +
      (apply_states (update_state c v false).1 (List.replicate m v)).2) : Nat × Nat) = (v, 1)
  rw [update_state_eq_other (Ne.symm h)]
  rw [show ((v, true) : Nat × Bool).1 = v from rfl]
  rw [apply_states_replicate_same v m]
  rfl

theorem apply_states_append (c : Nat) (l1 l2 : List Nat) :
    apply_states c (l1 ++ l2)
      = ((apply_states (apply_states c l1).1 l2).1,
         (apply_states c l1).2 + (apply_states (apply_states c l1).1 l2).2) := by
  induction l1 generalizing c with
  | nil => simp [apply_states]
  | cons v l ih =>
    simp only [List.cons_append, apply_states]
    rw [show l.append l2 = l ++ l2 from rfl, ih (update_state c v false).1]
    simp only [Prod.mk.injEq, true_and]
    omega

theorem count_bind_texture_append (a b : List gl_event) :
    count_bind_texture (a ++ b) = count_bind_texture a + count_bind_texture b := by
  simp [count_bind_texture, List.filter_append]

theorem activate_texture_unit_eq (ts : texture_state_t) (u : Nat) :
    (activate_texture ts u).1.unit = ts.unit := by
  rw [activate_texture]
  by_cases h : ts.activate = u
  · rw [update_state, h]
    simp
  · rw [update_state_eq_other h]

theorem activate_texture_no_bind (ts : texture_state_t) (u : Nat) :
    count_bind_texture (activate_texture ts u).2 = 0 := by
  rw [activate_texture]
  by_cases h : ts.activate = u
  · rw [update_state, h]
    simp [count_bind_texture]
  · rw [update_state_eq_other h]
    simp [count_bind_texture, List.filter]

theorem bind_texture_cached (ts : texture_state_t) {id : Nat}
    (h : ts.unit 0 0 = id) : bind_texture ts 0 GL_TEXTURE_2D id = (ts, []) := by
  rw [bind_texture]
  rw [show get_index_for_texture_target GL_TEXTURE_2D = 0 from rfl]
  rw [h, update_state_eq_same]

theorem bind_texture_miss_unit (ts : texture_state_t) {id : Nat}
    (h : ts.unit 0 0 ≠ id) :
    (bind_texture ts 0 GL_TEXTURE_2D id).1.unit 0 0 = id
    ∧ count_bind_texture (bind_texture ts 0 GL_TEXTURE_2D id).2 = 1 := by
  rw [bind_texture]
  rw [show get_index_for_texture_target GL_TEXTURE_2D = 0 from rfl]
  rw [update_state_eq_other h]
  constructor
  · rw [activate_texture_unit_eq]
    simp
  · rw [count_bind_texture_append, activate_texture_no_bind]
    rfl

theorem gl2_texture_binds_count (ids : List Nat) :
    ∀ ts : texture_state_t,
      count_bind_texture (gl2_texture_binds ts ids).2 = changes (ts.unit 0 0) ids := by
  induction ids with
  | nil => intro ts; rfl
  | cons id rest ih =>
    intro ts
    rw [gl2_texture_binds]
    dsimp only
    rw [count_bind_texture_append]
    by_cases h : ts.unit 0 0 = id
    · rw [bind_texture_cached ts h]
      rw [show count_bind_texture [] = 0 from rfl]
      rw [ih, changes]
      dsimp only
      rw [h, if_pos rfl]
    · obtain ⟨h1, h2⟩ := bind_texture_miss_unit ts h
      rw [h2, ih, changes, h1]
      rw [if_neg (fun he => h he.symm)]

theorem changes_eq_transitions (l : List Nat) :
    ∀ a : Nat, changes a l = transitions (a :: l) := by
  induction l with
  | nil => intro a; rfl
  | cons b l ih =>
    intro a
    rw [changes, ih b, transitions]
    by_cases hab : a = b
    · rw [if_pos hab, if_pos hab.symm]
    · rw [if_neg hab, if_neg (fun he => hab he.symm)]

theorem changes_le_transitions (c : Nat) (l : List Nat) :
    changes c l ≤ transitions l + 1 := by
  cases l with
  | nil => exact Nat.zero_le 1
  | cons a t =>
    rw [changes, changes_eq_transitions t a]
    split <;> omega

theorem event_order_of_append {α : Type} (p q : α → Bool) (l1 l2 : List α)
    (h1 : ∀ e ∈ l1, p e = false) (h2 : ∀ e ∈ l2, q e = false) :
    ∀ i j (hi : i < (l1 ++ l2).length) (hj : j < (l1 ++ l2).length),
      p ((l1 ++ l2).get ⟨i, hi⟩) = true → q ((l1 ++ l2).get ⟨j, hj⟩) = true → j < i := by
  intro i j hi hj hp hq
  have hil : l1.length ≤ i := by
    by_contra hcon
    push_neg at hcon
    rw [List.get_eq_getElem, List.getElem_append_left hcon] at hp
    rw [h1 _ (List.getElem_mem _)] at hp
    exact absurd hp (by decide)
  have hjl : j < l1.length := by
    by_contra hcon
    push_neg at hcon
    rw [List.get_eq_getElem, List.getElem_append_right hcon] at hq
    rw [h2 _ (List.getElem_mem _)] at hq
    exact absurd hq (by decide)
  omega

theorem drain_events_no_draw :
    ∀ (l : List Nat) (tex : Nat → Nat) (ha : handle_alloc_t),
      ∀ e ∈ (drain_free_textures tex ha l).2.2, is_draw_event e = false := by
  intro l
  induction l with
  | nil => intro tex ha e he; simp [drain_free_textures] at he
  | cons h rest ih =>
    intro tex ha e he
    rw [drain_free_textures] at he
    rcases List.mem_cons.1 he with rfl | hmem
    · rfl
    · exact ih _ _ e hmem

theorem command_events_no_delete (c : draw_command_t) :
    ∀ e ∈ command_events c, is_delete_event e = false := by
  intro e he
  simp only [command_events, List.mem_cons, List.not_mem_nil, or_false] at he
  rcases he with rfl | rfl | rfl | rfl <;> rfl

theorem run_frame_ops_commands_length {V U : Type} :
    ∀ (ops : List (frame_op V U)) (s : renderer_gl3_t V U),
      (run_frame_ops s ops).draw_list.commands.length
        = s.draw_list.commands.length + count_draw_ops ops := by
  intro ops
  induction ops with
  | nil => intro s; rfl
  | cons op rest ih =>
    intro s
    show (run_frame_ops (apply_frame_op s op) rest).draw_list.commands.length = _
    rw [ih]
    cases op with
    | draw vs ixs =>
      show (s.draw_list.draw vs ixs).commands.length + count_draw_ops rest = _
      rw [show (s.draw_list.draw vs ixs).commands
            = s.draw_list.commands ++ [{ count := ixs.length, offset := s.draw_list.indices.length }]
          from rfl]
      simp only [List.length_append, List.length_singleton]
      show _ = s.draw_list.commands.length + (count_draw_ops rest + 1)
      omega
    | uniform u => rfl
    | texture h => rfl
    | create rid => rfl
    | destroy h =>
      show (s.destroy_texture h).draw_list.commands.length + _ = _
      rw [show (s.destroy_texture h).draw_list = s.draw_list by
            rw [renderer_gl3_t.destroy_texture]; split <;> rfl]
      rfl

theorem run_frame_ops_uniforms_length {V U : Type} :
    ∀ (ops : List (frame_op V U)) (s : renderer_gl3_t V U),
      (run_frame_ops s ops).uniforms.length = s.uniforms.length + count_uniform_ops ops := by
  intro ops
  induction ops with
  | nil => intro s; rfl
  | cons op rest ih =>
    intro s
    show (run_frame_ops (apply_frame_op s op) rest).uniforms.length = _
    rw [ih]
    cases op with
    | draw vs ixs => rfl
    | uniform u =>
      show (s.uniforms ++ [u]).length + count_uniform_ops rest = _
      simp only [List.length_append, List.length_singleton]
      show _ = s.uniforms.length + (count_uniform_ops rest + 1)
      omega
    | texture h => rfl
    | create rid => rfl
    | destroy h =>
      show (s.destroy_texture h).uniforms.length + _ = _
      rw [show (s.destroy_texture h).uniforms = s.uniforms by
            rw [renderer_gl3_t.destroy_texture]; split <;> rfl]
      rfl

theorem run_frame_ops_bind_textures_length {V U : Type} :
    ∀ (ops : List (frame_op V U)) (s : renderer_gl3_t V U),
      (run_frame_ops s ops).bind_textures.length
        = s.bind_textures.length + count_texture_ops ops := by
  intro ops
  induction ops with
  | nil => intro s; rfl
  | cons op rest ih =>
    intro s
    show (run_frame_ops (apply_frame_op s op) rest).bind_textures.length = _
    rw [ih]
    cases op with
    | draw vs ixs => rfl
    | uniform u => rfl
    | texture h =>
      show (s.bind_textures ++ [h]).length + count_texture_ops rest = _
      simp only [List.length_append, List.length_singleton]
      show _ = s.bind_textures.length + (count_texture_ops rest + 1)
      omega
    | create rid => rfl
    | destroy h =>
      show (s.destroy_texture h).bind_textures.length + _ = _
      rw [show (s.destroy_texture h).bind_textures = s.bind_textures by
            rw [renderer_gl3_t.destroy_texture]; split <;> rfl]
      rfl

theorem ball_lt_iff_le {n m : Nat} : (∀ i, i < n → i < m) ↔ n ≤ m := by
  constructor
  · intro h
    by_cases hn : n = 0
    · omega
    · have := h (n - 1) (by omega)
      omega
  · intro h i hi
    omega

/-! ## Claim theorems -/

/-- Claim C1: for a handle pool of capacity 4, four consecutive alloc
calls return handles 0, 1, 2, 3; after free(1), the next alloc returns
1; and the alloc after that (pool again holding 4 live allocations)
returns the invalid sentinel. -/
theorem c1_handle_pool_scenario :
    (handle_alloc_t.init 4).alloc.2 = 0
    ∧ (handle_alloc_t.init 4).alloc.1.alloc.2 = 1
    ∧ (handle_alloc_t.init 4).alloc.1.alloc.1.alloc.2 = 2
    ∧ (handle_alloc_t.init 4).alloc.1.alloc.1.alloc.1.alloc.2 = 3
    ∧ ((handle_alloc_t.init 4).alloc.1.alloc.1.alloc.1.alloc.1.free 1).alloc.2 = 1
    ∧ ((handle_alloc_t.init 4).alloc.1.alloc.1.alloc.1.alloc.1.free 1).alloc.1.alloc.2
        = invalid_handle_t := by
  decide

/-- Claim C2: along every legal alloc/free trace (alloc never called on
a full pool, free only on currently allocated handles) from a freshly
constructed pool of capacity N (0 < N ≤ 255, the uint8_t range of the
source), the allocated handles are pairwise distinct and lie in [0, N),
dense[sparse[h]] = h for every allocated handle h, and the first
num_handles entries of dense are exactly the allocated handles. -/
theorem c2_allocator_invariants (N : Nat) (ops : List alloc_op)
    (_hpos : 0 < N) (hN : N ≤ 255)
    (hlegal : legal_alloc_ops (handle_alloc_t.init N) [] ops = true) :
    let r := run_alloc_ops (handle_alloc_t.init N) [] ops
    r.2.Nodup
    ∧ (∀ h ∈ r.2, h < N)
    ∧ (∀ h ∈ r.2, r.1.dense (r.1.sparse h) = h)
    ∧ (∀ h ∈ r.2, ∃ i, i < r.1.num_handles ∧ r.1.dense i = h)
    ∧ (∀ i, i < r.1.num_handles → r.1.dense i ∈ r.2) := by
  have inv := alloc_inv_run hN ops (handle_alloc_t.init N) [] (alloc_inv_init N) hlegal
  refine ⟨inv.hnodup, ?_, ?_, ?_, ?_⟩
  · intro h hm
    obtain ⟨i, hi, hdi⟩ := (inv.hmem h).1 hm
    exact hdi ▸ inv.hrange i (by have := inv.hnum; omega)
  · intro h hm
    exact (inv.hsparse h hm).2
  · intro h hm
    exact (inv.hmem h).1 hm
  · intro i hi
    exact (inv.hmem _).2 ⟨i, hi, rfl⟩

theorem c2_allocator_invariants_witness :
    (0 < 4 ∧ 4 ≤ 255
      ∧ legal_alloc_ops (handle_alloc_t.init 4) []
          [.alloc, .alloc, .free 0, .alloc] = true)
    ∧ (let r := run_alloc_ops (handle_alloc_t.init 4) [] [.alloc, .alloc, .free 0, .alloc]
       r.2.Nodup
       ∧ (∀ h ∈ r.2, h < 4)
       ∧ (∀ h ∈ r.2, r.1.dense (r.1.sparse h) = h)
       ∧ (∀ h ∈ r.2, ∃ i, i < r.1.num_handles ∧ r.1.dense i = h)
       ∧ (∀ i, i < r.1.num_handles → r.1.dense i ∈ r.2)) :=
  ⟨⟨by decide, by decide, by decide⟩,
   c2_allocator_invariants 4 [.alloc, .alloc, .free 0, .alloc]
     (by decide) (by decide) (by decide)⟩

/-- Claim C3: draw_list_t::draw appends the vertices, appends each local
index rebased by the vertex-sequence length at the moment of the call
(uint32 arithmetic), and appends one command spanning exactly the newly
appended index range; in particular two submissions of 3 vertices and 3
indices each yield 6 vertices, the stored indices of the second submission
equal to its local indices plus 3, and two commands of count 3. -/
theorem c3_draw_list_submit {V : Type} :
    (∀ (dl : draw_list_t V) (vs : List V) (ixs : List Nat),
        dl.draw vs ixs
          = { vertices := dl.vertices ++ vs,
              indices := dl.indices
                ++ ixs.map (fun ix => (ix + dl.vertices.length) % index_mod),
              commands := dl.commands
                ++ [{ count := ixs.length, offset := dl.indices.length }] })
    ∧ (∀ (vs1 vs2 : List V) (a1 a2 a3 b1 b2 b3 : Nat),
        vs1.length = 3 → vs2.length = 3 →
        a1 < index_mod → a2 < index_mod → a3 < index_mod →
        b1 + 3 < index_mod → b2 + 3 < index_mod → b3 + 3 < index_mod →
        let d := ((draw_list_t.empty V).draw vs1 [a1, a2, a3]).draw vs2 [b1, b2, b3]
        d.vertices.length = 6
        ∧ d.indices = [a1, a2, a3, b1 + 3, b2 + 3, b3 + 3]
        ∧ d.commands = [{ count := 3, offset := 0 }, { count := 3, offset := 3 }]) := by
  constructor
  · intro dl vs ixs
    rfl
  · intro vs1 vs2 a1 a2 a3 b1 b2 b3 hv1 hv2 ha1 ha2 ha3 hb1 hb2 hb3
    refine ⟨?_, ?_, ?_⟩
    · show ((([] : List V) ++ vs1) ++ vs2).length = 6
      simp [hv1, hv2]
    · show (([] : List Nat)
          ++ [a1 % index_mod, a2 % index_mod, a3 % index_mod])
          ++ [(b1 + vs1.length) % index_mod, (b2 + vs1.length) % index_mod,
              (b3 + vs1.length) % index_mod]
          = [a1, a2, a3, b1 + 3, b2 + 3, b3 + 3]
      rw [hv1]
      rw [Nat.mod_eq_of_lt ha1, Nat.mod_eq_of_lt ha2, Nat.mod_eq_of_lt ha3,
          Nat.mod_eq_of_lt hb1, Nat.mod_eq_of_lt hb2, Nat.mod_eq_of_lt hb3]
      rfl
    · show (([] : List draw_list_command_t)
          ++ [{ count := 3, offset := 0 }])
          ++ [{ count := 3, offset := ([a1 % index_mod, a2 % index_mod, a3 % index_mod] : List Nat).length }]
          = [{ count := 3, offset := 0 }, { count := 3, offset := 3 }]
      rfl

theorem c3_draw_list_submit_witness :
    (([(), (), ()] : List Unit).length = 3
      ∧ (0 : Nat) < index_mod ∧ 1 < index_mod ∧ 2 < index_mod
      ∧ 0 + 3 < index_mod ∧ 1 + 3 < index_mod ∧ 2 + 3 < index_mod)
    ∧ (let d := ((draw_list_t.empty Unit).draw [(), (), ()] [0, 1, 2]).draw
         [(), (), ()] [0, 1, 2]
       d.vertices.length = 6
       ∧ d.indices = [0, 1, 2, 0 + 3, 1 + 3, 2 + 3]
       ∧ d.commands = [{ count := 3, offset := 0 }, { count := 3, offset := 3 }]) :=
  ⟨⟨by decide, by decide, by decide, by decide, by decide, by decide, by decide⟩,
   c3_draw_list_submit.2 [(), (), ()] [(), (), ()] 0 1 2 0 1 2
     (by decide) (by decide) (by decide) (by decide) (by decide)
     (by decide) (by decide) (by decide)⟩

/-- Claim C4: for every sequence of submissions within one frame,
starting from the cleared draw list, the concatenation of the command
slices in storage order is exactly the full index sequence (no gaps, no
overlaps). -/
theorem c4_command_slices_cover {V : Type} (subs : List (List V × List Nat)) :
    (((draw_all (draw_list_t.empty V) subs).commands.map
        (command_slice (draw_all (draw_list_t.empty V) subs).indices)).flatten)
      = (draw_all (draw_list_t.empty V) subs).indices := by
  have hc : commands_contiguous 0 (draw_all (draw_list_t.empty V) subs).commands
      (draw_all (draw_list_t.empty V) subs).indices.length :=
    draw_all_contiguous subs (draw_list_t.empty V) rfl
  have := join_command_slices (draw_all (draw_list_t.empty V) subs).commands
    (draw_all (draw_list_t.empty V) subs).indices 0 hc
  simpa using this

/-- Claim C5 counterexample: the cache entries are zero-initialized and
force is never passed, so applying the value 0 once (N = 1) through a
fresh cache invokes the underlying bind action zero times, not once as
the claim requires for every value v. -/
theorem c5_state_cache_counterexample :
    (apply_states texture_state_t.initial.activate (List.replicate 1 0)).2 = 0
    ∧ ¬ (apply_states texture_state_t.initial.activate (List.replicate 1 0)).2 = 1 := by
  decide

/-- Claim C5 as amended: provided the first requested value differs from
the currently cached value, applying it N >= 1 times consecutively
(without force) invokes the bind action exactly once, and a sequence of
N applications whose requested value changes exactly once (k >= 1 copies
of a followed by m >= 1 copies of b, with b differing from a) invokes it
exactly twice. -/
theorem c5_state_cache_amended :
    (∀ (c v n : Nat), v ≠ c → 1 ≤ n →
        (apply_states c (List.replicate n v)).2 = 1)
    ∧ (∀ (c a b k m : Nat), a ≠ c → b ≠ a → 1 ≤ k → 1 ≤ m →
        (apply_states c (List.replicate k a ++ List.replicate m b)).2 = 2) := by
  constructor
  · intro c v n hvc hn
    rw [apply_states_replicate_new hvc n hn]
  · intro c a b k m hac hba hk hm
    rw [apply_states_append]
    rw [apply_states_replicate_new hac k hk]
    rw [show ((a, 1) : Nat × Nat).1 = a from rfl,
        show ((a, 1) : Nat × Nat).2 = 1 from rfl]
    rw [apply_states_replicate_new hba m hm]
    rfl

theorem c5_state_cache_amended_witness :
    ((1 : Nat) ≠ 0 ∧ (1 : Nat) ≤ 3
      ∧ (apply_states 0 (List.replicate 3 1)).2 = 1)
    ∧ ((1 : Nat) ≠ 0 ∧ (2 : Nat) ≠ 1 ∧ (1 : Nat) ≤ 2 ∧ (1 : Nat) ≤ 2
      ∧ (apply_states 0 (List.replicate 2 1 ++ List.replicate 2 2)).2 = 2) :=
  ⟨⟨by decide, by decide,
     c5_state_cache_amended.1 0 1 3 (by decide) (by decide)⟩,
   ⟨by decide, by decide, by decide, by decide,
     c5_state_cache_amended.2 0 1 2 2 2 (by decide) (by decide) (by decide) (by decide)⟩⟩

/-- Claim C6: create_texture on an exhausted pool does return the
invalid sentinel, but contrary to the claim (and the recoverable-failure
contract in the spec) it is not free of side effects: the code still
calls create_texture_impl — creating a native resource, here with id 42 —
and stores that id through textures[handle.index] with handle.index =
255, which is 127 past the end of the 128-entry textures array: an
out-of-bounds write.  The model makes the stray write visible at map
index 255, beyond every valid slot index. -/
theorem c6_create_texture_exhausted_oob :
    ((full_renderer.create_texture 42).2 = invalid_handle_t)
    ∧ ((full_renderer.create_texture 42).1.textures invalid_handle_t = 42)
    ∧ max_texture ≤ invalid_handle_t := by
  refine ⟨rfl, ?_, by decide⟩
  show array_write full_renderer.textures invalid_handle_t 42 invalid_handle_t = 42
  rw [array_write_apply, if_pos rfl]

/-- Claim C7: in the deferred-destruction backend, destroy_texture on a
valid handle only appends it to the deferred queue (every other field —
the textures slots, the handle allocator, the accumulated frame state —
is untouched); end_frame returns the queued handles to the pool exactly
by draining that queue, and in the event stream end_frame issues, every
glDeleteTextures comes after every glDrawElements of the frame, so a
destroyed handle is still allocated while any draw command of the frame
is unissued. -/
theorem c7_deferred_destroy {V U : Type} :
    (∀ (s : renderer_gl3_t V U) (h : Nat), h ≠ invalid_handle_t →
        s.destroy_texture h = { s with free_textures := s.free_textures ++ [h] })
    ∧ (∀ (num_frac : Nat) (s : renderer_gl3_t V U),
        (s.end_frame num_frac).1.handle_alloc
          = (drain_free_textures s.textures s.handle_alloc s.free_textures).2.1
        ∧ (s.end_frame num_frac).1.free_textures = []
        ∧ ∀ (i j : Nat) (hi : i < (s.end_frame num_frac).2.length)
            (hj : j < (s.end_frame num_frac).2.length),
            is_delete_event ((s.end_frame num_frac).2.get ⟨i, hi⟩) = true →
            is_draw_event ((s.end_frame num_frac).2.get ⟨j, hj⟩) = true → j < i) := by
  constructor
  · intro s h hne
    rw [renderer_gl3_t.destroy_texture, if_neg hne]
  · intro nf s
    have h1 : ∀ e ∈ ([gl_event.bufferData GL_ARRAY_BUFFER s.draw_list.vertices.length,
          gl_event.bufferData GL_ELEMENT_ARRAY_BUFFER s.draw_list.indices.length,
          gl_event.bufferData GL_UNIFORM_BUFFER (uniform_block_size * s.uniforms.length)]
        ++ ((s.build_draw_commands nf).map command_events).flatten),
        is_delete_event e = false := by
      intro e he
      rcases List.mem_append.1 he with hup | hfl
      · simp only [List.mem_cons, List.not_mem_nil, or_false] at hup
        rcases hup with rfl | rfl | rfl <;> rfl
      · obtain ⟨l, hl, hel⟩ := List.mem_flatten.1 hfl
        obtain ⟨c, _, rfl⟩ := List.mem_map.1 hl
        exact command_events_no_delete c e hel
    have h2 : ∀ e ∈ (drain_free_textures s.textures s.handle_alloc s.free_textures).2.2,
        is_draw_event e = false :=
      fun e he => drain_events_no_draw s.free_textures s.textures s.handle_alloc e he
    exact ⟨rfl, rfl, event_order_of_append is_delete_event is_draw_event _ _ h1 h2⟩

theorem c7_deferred_destroy_witness :
    ((3 : Nat) ≠ invalid_handle_t)
    ∧ ((renderer_gl3_t.initial Unit Unit).destroy_texture 3
        = { renderer_gl3_t.initial Unit Unit with
            free_textures := (renderer_gl3_t.initial Unit Unit).free_textures ++ [3] }) :=
  ⟨by decide, c7_deferred_destroy.1 (renderer_gl3_t.initial Unit Unit) 3 (by decide)⟩

theorem count_bind_command_events_flatten :
    ∀ cmds : List draw_command_t,
      count_bind_texture ((cmds.map command_events).flatten) = cmds.length := by
  intro cmds
  induction cmds with
  | nil => rfl
  | cons c rest ih =>
    show count_bind_texture (command_events c ++ (rest.map command_events).flatten)
      = rest.length + 1
    rw [count_bind_texture_append, ih]
    show 1 + rest.length = rest.length + 1
    omega

theorem count_bind_drain :
    ∀ (l : List Nat) (tex : Nat → Nat) (ha : handle_alloc_t),
      count_bind_texture (drain_free_textures tex ha l).2.2 = 0 := by
  intro l
  induction l with
  | nil => intro tex ha; rfl
  | cons h rest ih =>
    intro tex ha
    show count_bind_texture
      (gl_event.deleteTexture (tex h)
        :: (drain_free_textures (array_write tex h 0) (ha.free h) rest).2.2) = 0
    show count_bind_texture (drain_free_textures (array_write tex h 0) (ha.free h) rest).2.2 = 0
    exact ih _ _

/-- Claim C8 counterexample: in the BatchedUpload backend, a frame of
two draw commands sharing one texture (resource id 7) makes end_frame
issue two glBindTexture calls — the loop in lines 949-958 calls
glActiveTexture and glBindTexture directly, not through the cache — so
the binding-call count is not bounded by the number of distinct
transitions (one bind would suffice) and the claimed suppression of the
redundant rebind does not happen. -/
theorem c8_redundant_rebind_counterexample :
    let r := (renderer_gl3_t.initial Unit Unit).create_texture 7
    let s := run_frame_ops r.1.begin_frame
      [.uniform (), .texture r.2, .draw [(), (), ()] [0, 1, 2],
       .uniform (), .texture r.2, .draw [(), (), ()] [0, 1, 2]]
    count_bind_texture (s.end_frame 2).2 = 2
    ∧ transitions [7, 7] + 1 = 1
    ∧ ¬ count_bind_texture (s.end_frame 2).2 ≤ transitions [7, 7] + 1 := by
  decide

/-- Claim C8 as amended: in the gl2 (Immediate) backend every texture
bind goes through the StateCache, so the number of glBindTexture calls
a sequence of texture submissions issues is bounded by the number of
distinct transitions in the requested ids plus one initial bind — while
in the BatchedUpload backend the end_frame command loop bypasses the
cache and issues exactly one glBindTexture per command (num_frac of
them), regardless of how many consecutive commands share a texture. -/
theorem c8_binding_amended :
    (∀ (ts : texture_state_t) (ids : List Nat),
        count_bind_texture (gl2_texture_binds ts ids).2 ≤ transitions ids + 1)
    ∧ (∀ (V U : Type) (num_frac : Nat) (s : renderer_gl3_t V U),
        count_bind_texture (s.end_frame num_frac).2 = num_frac) := by
  constructor
  · intro ts ids
    rw [gl2_texture_binds_count]
    exact changes_le_transitions _ ids
  · intro V U nf s
    show count_bind_texture
      ([gl_event.bufferData GL_ARRAY_BUFFER s.draw_list.vertices.length,
        gl_event.bufferData GL_ELEMENT_ARRAY_BUFFER s.draw_list.indices.length,
        gl_event.bufferData GL_UNIFORM_BUFFER (uniform_block_size * s.uniforms.length)]
        ++ ((s.build_draw_commands nf).map command_events).flatten
        ++ (drain_free_textures s.textures s.handle_alloc s.free_textures).2.2) = nf
    rw [count_bind_texture_append, count_bind_texture_append]
    rw [count_bind_command_events_flatten, count_bind_drain]
    show 0 + ((s.build_draw_commands nf).length + 0) = nf
    rw [renderer_gl3_t.build_draw_commands, List.length_map, List.length_range]
    omega

/-- Claim C9 counterexample: the accesses of end_frame are all in bounds in a
frame with num_frac = 1 after two draw, two uniform and two texture
submissions — the claimed precondition (exactly num_frac submissions of
each kind) does not hold, so in-boundedness is not exact for it: making
at least num_frac submissions of each kind is what characterizes it. -/
theorem c9_end_frame_bounds_counterexample :
    let ops : List (frame_op Unit Unit) :=
      [.draw [] [], .draw [] [], .uniform (), .uniform (), .texture 0, .texture 0]
    let s := run_frame_ops (renderer_gl3_t.initial Unit Unit).begin_frame ops
    s.end_frame_in_bounds 1
    ∧ ¬ (count_draw_ops ops = 1 ∧ count_uniform_ops ops = 1 ∧ count_texture_ops ops = 1) := by
  decide

/-- Claim C9 as amended: end_frame iterates the global num_frac, not the
accumulated command count; starting from begin_frame, its accesses to
draw_list.commands[i], uniform_offsets[i] and bind_textures[i] for
i < num_frac are all in bounds exactly when the frame issued at least
num_frac draw submissions, at least num_frac uniform submissions and at
least num_frac texture submissions. -/
theorem c9_end_frame_bounds_amended {V U : Type} (num_frac : Nat)
    (s0 : renderer_gl3_t V U) (ops : List (frame_op V U)) :
    (run_frame_ops s0.begin_frame ops).end_frame_in_bounds num_frac
      ↔ (num_frac ≤ count_draw_ops ops ∧ num_frac ≤ count_uniform_ops ops
          ∧ num_frac ≤ count_texture_ops ops) := by
  have hc : (run_frame_ops s0.begin_frame ops).draw_list.commands.length
      = count_draw_ops ops := by
    rw [run_frame_ops_commands_length]
    show 0 + count_draw_ops ops = count_draw_ops ops
    omega
  have hu : (run_frame_ops s0.begin_frame ops).uniform_offsets.length
      = count_uniform_ops ops := by
    rw [renderer_gl3_t.uniform_offsets, List.length_map, List.length_range]
    rw [run_frame_ops_uniforms_length]
    show 0 + count_uniform_ops ops = count_uniform_ops ops
    omega
  have hb : (run_frame_ops s0.begin_frame ops).bind_textures.length
      = count_texture_ops ops := by
    rw [run_frame_ops_bind_textures_length]
    show 0 + count_texture_ops ops = count_texture_ops ops
    omega
  rw [renderer_gl3_t.end_frame_in_bounds, hc, hu, hb]
  constructor
  · intro h
    refine ⟨?_, ?_, ?_⟩
    · exact ball_lt_iff_le.1 fun i hi => (h i hi).1
    · exact ball_lt_iff_le.1 fun i hi => (h i hi).2.1
    · exact ball_lt_iff_le.1 fun i hi => (h i hi).2.2
  · intro h i hi
    exact ⟨by omega, by omega, by omega⟩

/-- Claim C10: every StateCache entry (the active-unit cache and every
per-unit, per-target bound-texture cache entry) is zero at construction,
activate_texture and bind_texture never pass the force flag, and
therefore a first bind request whose value is 0 — binding texture id 0
or activating unit 0 — issues no underlying graphics call at all and
leaves the cache unchanged. -/
theorem c10_zero_initial_state :
    texture_state_t.initial.activate = 0
    ∧ (∀ u t : Nat, texture_state_t.initial.unit u t = 0)
    ∧ (∀ unit target : Nat, unit < 8 →
        bind_texture texture_state_t.initial unit target 0 = (texture_state_t.initial, []))
    ∧ activate_texture texture_state_t.initial 0 = (texture_state_t.initial, []) := by
  refine ⟨rfl, fun u t => rfl, fun unit target _ => rfl, rfl⟩

theorem c10_zero_initial_state_witness :
    (0 : Nat) < 8
    ∧ bind_texture texture_state_t.initial 0 GL_TEXTURE_2D 0 = (texture_state_t.initial, []) :=
  ⟨by decide, c10_zero_initial_state.2.2.1 0 GL_TEXTURE_2D (by decide)⟩
